import Mathlib

/-!
Verification of the Restfox auto-load feature.

Shallow embedding of:
* `packages/ui/src/helpers/auto-load.ts` — the client-side auto-load
  orchestrator (`readConfigFile`, `readMultipleFiles`, `processImportFile`,
  `autoLoadData`, `shouldSkipAutoLoad`);
* `packages/web-standalone/auto-load.js` — the server-side readiness/cache
  service (`loadConfiguredObjects`, `cacheLoadedObjects`, `getCachedObjects`);
* `packages/web-standalone/app.js` — the HTTP surface of that service
  (status / objects / reload handlers).

External collaborators (the injected file reader, the YAML parser, the
format converters, `generateNewIdsForTree`, the workspace store) are
parameters of the embedding, collected in a `Deps` record; platform
builtins (`JSON.stringify`, `JSON.parse`, `fetch`) are likewise parameters.
-/

set_option autoImplicit false

namespace RestfoxAutoLoad

/-- A JSON-like value, the shape of parsed file contents flowing through the
auto-load pipeline. -/
inductive Val where
  | vnull
  | vbool (b : Bool)
  | num (n : Int)
  | str (s : String)
  | arr (elems : List Val)
  | obj (fields : List (String × Val))

/-- JS property access `v[k]` on an object (first binding wins, as in a JS
object literal with unique keys); `undefined` is `none`. -/
def Val.getField : Val → String → Option Val
  | .obj fields, k => fields.lookup k
  | _, _ => none

/-- Reads a property expected to be a string (`v[k]` when the stored value is
a string); environments are keyed by their string `name` per the data model. -/
def Val.getStr (v : Val) (k : String) : Option String :=
  match v.getField k with
  | some (.str s) => some s
  | _ => none

/-- JS property assignment `o[k] = v`: replaces the binding if the key is
present, otherwise adds it. -/
def setFieldList (k : String) (v : Val) : List (String × Val) → List (String × Val)
  | [] => [(k, v)]
  | (k', v') :: rest => if k' = k then (k, v) :: rest else (k', v') :: setFieldList k v rest

def Val.setField (w : Val) (k : String) (v : Val) : Val :=
  match w with
  | .obj fields => .obj (setFieldList k v fields)
  | other => other

/-- `FileContent` from auto-load.ts: the result of one successful
`readLocalFile`; `type` is `'json'` when the content was pre-parsed. -/
inductive FCType where
  | json
  | text
deriving DecidableEq

structure FileContent where
  name : String
  content : Val
  ctype : FCType

/-- `ConfigFile` from auto-load.ts: the parsed declarative config; each key
may be absent (`undefined`). -/
structure ConfigFile where
  collections : Option (List String)
  environments : Option (List String)

/-- `AutoLoadResult` from auto-load.ts. -/
structure AutoLoadResult where
  success : Bool
  error : Option String
  collectionsLoaded : Nat
  environmentsLoaded : Nat
deriving DecidableEq

/-- The `constants.AUTO_LOAD` configuration switches consumed by the
orchestrator (the constants module is a build-time configuration file, so its
concrete values are parameters here). -/
structure AutoLoadCfg where
  enabled : Bool
  configFile : String
  skipOnExistingData : Bool
  mergeEnvironments : Bool
  defaultImportType : String

/-- Result shape of `importPostmanV2` (`{ collection, plugins }`); `plugins`
may be absent (`postmanResult.plugins || []`). -/
structure PostmanV2Res where
  collection : List Val
  plugins : Option (List Val)

/-- `convertPostmanExportToRestfoxCollection` returns either a plain item
array (Postman v1) or a `{ collection, plugins }` record (v2). -/
inductive PostmanRes where
  | v1 (items : List Val)
  | v2 (r : PostmanV2Res)

/-- Result shape of `convertRestfoxExportToRestfoxCollection`. -/
structure RestfoxRes where
  newCollectionTree : List Val
  newPlugins : Option (List Val)

/-- The external collaborators injected into the orchestrator embedding.
`readLocalFile` models the environment-specific file reader of auto-load.ts
(it catches all its own errors and returns `null`, hence `Option`); the
converters model the format parsers from `@/helpers` and `@/parsers/postman`
(they may throw, hence `Except`); `parseConfigText` models the
js-yaml-or-fallback parse step of `readConfigFile` followed by its
object-shape check (`none` = unreadable or invalid shape); `genIds` models
`generateNewIdsForTree` (fresh tree plus old-id-to-new-id mapping);
`dispatchSetTree` models `store.dispatch('setCollectionTree', ...)`,
returning the `error` field of its result; `stringifyJson` models
`JSON.stringify`. -/
structure Deps where
  readLocalFile : String → Option FileContent
  parseConfigText : String → Option ConfigFile
  stringifyJson : Val → String
  convertPostman : Val → String → Except String PostmanRes
  convertInsomnia : Val → String → Except String (List Val)
  convertRestfox : Val → String → Except String RestfoxRes
  convertOpenAPI : String → String → Except String (List Val)
  genIds : List Val → List Val × List (String × String)
  dispatchSetTree : List Val → List Val → Option String

/-- The string handed to the YAML parser by `readConfigFile`: pre-parsed JSON
content is serialized back to text, string content is used as-is (a
`type: 'string'` file always carries string content by construction of
`readLocalFile`; the serialization branch totalizes the other cases). -/
def contentToYamlText (d : Deps) (fc : FileContent) : String :=
  match fc.content with
  | .str s => s
  | v => d.stringifyJson v

/-- `readConfigFile` from auto-load.ts: read the config file via the injected
reader, parse it, and reject an invalid shape; every failure path returns
`null`. -/
def readConfigFile (d : Deps) (configFilePath : String) : Option ConfigFile :=
  match d.readLocalFile configFilePath with
  | none => none
  | some fc => d.parseConfigText (contentToYamlText d fc)

/-- `readMultipleFiles` from auto-load.ts: attempt every path, keep the
successful reads in order. -/
def readMultipleFiles (d : Deps) (filePaths : List String) : List FileContent :=
  filePaths.filterMap d.readLocalFile

/-! ### Environment merger

`mergeArraysByProperty` is imported from `@/utils/array`, whose source is not
part of this repository snapshot; it is modelled from the spec below. -/

/-- The merge key of an entry: the string stored under `prop` (environments
are uniquely keyed by their string `name`). -/
def envKeyOf (prop : String) (v : Val) : Option String :=
  v.getStr prop

/-- One incoming entry against the accumulated list: replace the first entry
with the same key in place, otherwise append at the end. -/
def upsertByKey (prop : String) (item2 : Val) : List Val → List Val
  | [] => [item2]
  | item1 :: rest =>
      if envKeyOf prop item1 = envKeyOf prop item2 then item2 :: rest
      else item1 :: upsertByKey prop item2 rest

/-- Modelled from the spec: `mergeArraysByProperty` from `@/utils/array`
(not under src/). Policy (spec §4.3): entries are matched by key; an
incoming entry whose key exists in `existing` replaces that entry in place
(position preserved); an incoming entry with a new key is appended; entries
in `existing` with no counterpart in `incoming` are preserved. Incoming
entries are folded in order into the existing list. -/
def mergeArraysByProperty (arr1 arr2 : List Val) (prop : String) : List Val :=
  arr2.foldl (fun merged item2 => upsertByKey prop item2 merged) arr1

/-! ### processImportFile -/

/-- Result of `processImportFile`. -/
structure ProcessRes where
  collectionTree : List Val
  plugins : List Val
  environments : List Val

/-- Plugin id rewrite after remapping:
`if (plugin.collectionId && mapping[plugin.collectionId]) plugin.collectionId = ...`
(a missing or empty — falsy — `collectionId` is left untouched; generated ids
are non-empty, so a mapping hit is truthy). -/
def pluginRewrite (mapping : List (String × String)) (p : Val) : Val :=
  match p.getStr "collectionId" with
  | some cid =>
      if cid ≠ "" then
        match mapping.lookup cid with
        | some nid => p.setField "collectionId" (.str nid)
        | none => p
      else p
  | none => p

/-- The supported `importType` tags of `processImportFile`'s switch. -/
def supportedImportTypes : List String :=
  ["Postman", "Insomnia", "Restfox", "OpenAPI"]

/-- `processImportFile` from auto-load.ts: dispatch on `importType`; the
default case logs a warning and falls through with empty accumulators; a
converter failure is rethrown (`Except.error`); when a non-empty tree was
produced, `generateNewIdsForTree` runs and plugin `collectionId`s are
rewritten through its mapping. The `Restfox` branch additionally surfaces a
truthy `content.environments` array. -/
def processImportFile (d : Deps) (fileContent : FileContent) (importType : String)
    (workspaceId : String) : Except String ProcessRes :=
  let content := fileContent.content
  let converted : Except String (List Val × List Val × List Val) :=
    match importType with
    | "Postman" =>
        (d.convertPostman content workspaceId).map fun
          | .v1 items => (items, [], [])
          | .v2 r => (r.collection, r.plugins.getD [], [])
    | "Insomnia" =>
        (d.convertInsomnia content workspaceId).map fun t => (t, [], [])
    | "Restfox" =>
        (d.convertRestfox content workspaceId).map fun r =>
          (r.newCollectionTree, r.newPlugins.getD [],
            match content.getField "environments" with
            | some (.arr l) => l
            | _ => [])
    | "OpenAPI" =>
        let openApiContent := match content with
          | .str s => s
          | v => d.stringifyJson v
        (d.convertOpenAPI openApiContent workspaceId).map fun t => (t, [], [])
    | _ => .ok ([], [], [])
  converted.map fun acc =>
    let collectionTree := acc.1
    let plugins := acc.2.1
    let environments := acc.2.2
    if collectionTree.length > 0 then
      let remapped := d.genIds collectionTree
      ⟨remapped.1, plugins.map (pluginRewrite remapped.2), environments⟩
    else ⟨collectionTree, plugins, environments⟩

/-! ### autoLoadData -/

/-- Mutable state of one `autoLoadData` run: the counters and batch
accumulators, the `activeWorkspace.environments` field (absent before any
assignment, as in JS), and a log of `store.commit('updateWorkspaceEnvironments')`
calls. -/
structure RunSt where
  totalColl : Nat
  totalEnv : Nat
  allTree : List Val
  allPlugins : List Val
  wsEnvs : Option (List Val)
  commits : List (String × List Val)

/-- The observable outcome of a run: the returned `AutoLoadResult`, the final
`activeWorkspace.environments`, the commit log, the payload of the final
`setCollectionTree` dispatch (if one happened), and every file path handed to
`readLocalFile`, in order. -/
structure Outcome where
  result : AutoLoadResult
  wsEnvs : Option (List Val)
  commits : List (String × List Val)
  dispatched : Option (List Val × List Val)
  reads : List String

/-- Body of the per-collection-file loop of `autoLoadData`: process the file;
on failure log and skip; on success extend the batch accumulators, merge (or
replace) any embedded environments into the workspace and commit them, and
bump the collection counter. -/
def collStep (d : Deps) (cfg : AutoLoadCfg) (workspaceId : String)
    (st : RunSt) (fileContent : FileContent) : RunSt :=
  match processImportFile d fileContent cfg.defaultImportType workspaceId with
  | .error _ => st
  | .ok r =>
      let st1 := { st with
        allTree := st.allTree ++ r.collectionTree,
        allPlugins := st.allPlugins ++ r.plugins }
      let st2 :=
        if r.environments.length > 0 then
          let newEnvs :=
            if cfg.mergeEnvironments then
              mergeArraysByProperty (st1.wsEnvs.getD []) r.environments "name"
            else r.environments
          { st1 with
            wsEnvs := some newEnvs,
            commits := st1.commits ++ [(workspaceId, newEnvs)],
            totalEnv := st1.totalEnv + r.environments.length }
        else st1
      { st2 with totalColl := st2.totalColl + 1 }

/-- Body of the per-environment-file loop of `autoLoadData`: coerce the
content to an array (wrapping a single object), merge or replace, commit, and
count the entities loaded. -/
def envStep (cfg : AutoLoadCfg) (workspaceId : String)
    (st : RunSt) (fileContent : FileContent) : RunSt :=
  let environments :=
    match fileContent.content with
    | .arr l => l
    | v => [v]
  let newEnvs :=
    if cfg.mergeEnvironments then
      mergeArraysByProperty (st.wsEnvs.getD []) environments "name"
    else environments
  { st with
    wsEnvs := some newEnvs,
    commits := st.commits ++ [(workspaceId, newEnvs)],
    totalEnv := st.totalEnv + environments.length }

/-- The collection-source paths actually read (`configData.collections &&
configData.collections.length > 0` guards the loop). -/
def collReadList (cd : ConfigFile) : List String :=
  match cd.collections with
  | some paths => if paths.length > 0 then paths else []
  | none => []

def envReadList (cd : ConfigFile) : List String :=
  match cd.environments with
  | some paths => if paths.length > 0 then paths else []
  | none => []

def runCollLoop (d : Deps) (cfg : AutoLoadCfg) (workspaceId : String)
    (st : RunSt) (cd : ConfigFile) : RunSt :=
  match cd.collections with
  | some paths =>
      if paths.length > 0 then
        (readMultipleFiles d paths).foldl (collStep d cfg workspaceId) st
      else st
  | none => st

def runEnvLoop (d : Deps) (cfg : AutoLoadCfg) (workspaceId : String)
    (st : RunSt) (cd : ConfigFile) : RunSt :=
  match cd.environments with
  | some paths =>
      if paths.length > 0 then
        (readMultipleFiles d paths).foldl (envStep cfg workspaceId) st
      else st
  | none => st

def initSt (ws0 : Option (List Val)) : RunSt :=
  ⟨0, 0, [], [], ws0, []⟩

def okOutcome (st : RunSt) (reads : List String)
    (disp : Option (List Val × List Val)) : Outcome :=
  ⟨⟨true, none, st.totalColl, st.totalEnv⟩, st.wsEnvs, st.commits, disp, reads⟩

/-- Final commit step of `autoLoadData`: if any collection content was
accumulated, dispatch it as one batch; a truthy `error` field on the
dispatch result is thrown and caught by the outer handler, which returns
`success: false` with the store's message and zero counters (an empty-string
error is falsy in JS and is not thrown). -/
def finishRun (d : Deps) (st : RunSt) (reads : List String) : Outcome :=
  if st.allTree.length > 0 then
    match d.dispatchSetTree st.allTree st.allPlugins with
    | some msg =>
        if msg = "" then okOutcome st reads (some (st.allTree, st.allPlugins))
        else ⟨⟨false, some msg, 0, 0⟩, st.wsEnvs, st.commits,
          some (st.allTree, st.allPlugins), reads⟩
    | none => okOutcome st reads (some (st.allTree, st.allPlugins))
  else okOutcome st reads none

/-- `autoLoadData` from auto-load.ts. Disabled runs and runs whose config
resolution fails return immediately with `success: true` and zero counters;
otherwise collection files and then environment files are loaded, and the
accumulated batch is dispatched. -/
def autoLoadData (d : Deps) (cfg : AutoLoadCfg) (workspaceId : String)
    (ws0 : Option (List Val)) : Outcome :=
  if cfg.enabled = false then
    ⟨⟨true, none, 0, 0⟩, ws0, [], none, []⟩
  else
    match readConfigFile d cfg.configFile with
    | none => ⟨⟨true, none, 0, 0⟩, ws0, [], none, [cfg.configFile]⟩
    | some cd =>
        let st1 := runCollLoop d cfg workspaceId (initSt ws0) cd
        let st2 := runEnvLoop d cfg workspaceId st1 cd
        finishRun d st2 (cfg.configFile :: (collReadList cd ++ envReadList cd))

/-- `shouldSkipAutoLoad` from auto-load.ts (its `activeWorkspace` parameter
is unused in the source body). -/
def shouldSkipAutoLoad (cfg : AutoLoadCfg) (_activeWorkspace : Option (List Val))
    (collectionTree : List Val) : Bool :=
  if cfg.enabled = false then true
  else if cfg.skipOnExistingData && collectionTree.length > 0 then true
  else false

/-- Modelled from the spec: the workspace-activation caller (not under src/)
that composes the two exported entry points — it consults
`shouldSkipAutoLoad` before any I/O and, when skipping, terminates
immediately reporting zero loaded; otherwise it runs `autoLoadData`
(spec §4.4 step 1). -/
def orchestratorRun (d : Deps) (cfg : AutoLoadCfg) (workspaceId : String)
    (ws0 : Option (List Val)) (collectionTree : List Val) : Outcome :=
  if shouldSkipAutoLoad cfg ws0 collectionTree then
    ⟨⟨true, none, 0, 0⟩, ws0, [], none, []⟩
  else autoLoadData d cfg workspaceId ws0

/-! ### Readiness & cache service (packages/web-standalone)

The server process (`app.js` + `auto-load.js`). `fetch` is a platform
builtin and is a parameter: the outcome of the `n`-th fetch attempt against a
given source is either a thrown network error or a `Response` with an `ok`
flag and a textual body. The source declares the `response` and `attempts`
variables once, outside both per-source loops, so the last `Response` object
is carried across sources and across the collections/environments loops; a
`Response` body can be read (`.text()`) only once, so each response carries a
`consumed` flag. -/

/-- Outcome of one `fetch(filePath)` attempt. -/
inductive FetchOutcome where
  | thrown
  | resp (ok : Bool) (body : String)

/-- A fetch `Response` as observed by the loader: the `ok` flag, the body
text, and whether the body stream has already been consumed by `.text()`. -/
structure Resp where
  ok : Bool
  body : String
  consumed : Bool

/-- Result of the bounded retry loop: the final value of the `response`
variable, the number of `fetch` calls made, and the number of 1-second
sleeps performed. -/
structure RetryRes where
  resp : Option Resp
  calls : Nat
  sleeps : Nat

/-- The `while (attempts < maxAttempts)` retry loop of
`loadConfiguredObjects`, lines 32–46 / 75–89: fetch; break on an ok
response; on a thrown fetch keep the previous `response` value; increment
`attempts` and sleep 1 s unless the bound is reached. `fuel` is the number
of attempts still allowed (`maxAttempts - attempts`) and `idx` the current
attempt index. -/
def retryAux (f : Nat → FetchOutcome) : Nat → Nat → Option Resp → RetryRes
  | 0, _, r => ⟨r, 0, 0⟩
  | fuel + 1, idx, r =>
      match f idx with
      | .resp true body => ⟨some ⟨true, body, false⟩, 1, 0⟩
      | .resp false body =>
          if fuel = 0 then ⟨some ⟨false, body, false⟩, 1, 0⟩
          else
            let r2 := retryAux f fuel (idx + 1) (some ⟨false, body, false⟩)
            ⟨r2.resp, r2.calls + 1, r2.sleeps + 1⟩
      | .thrown =>
          if fuel = 0 then ⟨r, 1, 0⟩
          else
            let r2 := retryAux f fuel (idx + 1) r
            ⟨r2.resp, r2.calls + 1, r2.sleeps + 1⟩

/-- `maxAttempts = 60 // 1 minute with 1 second intervals`. -/
def maxAttempts : Nat := 60

def retryFetch (f : Nat → FetchOutcome) (r0 : Option Resp) : RetryRes :=
  retryAux f maxAttempts 0 r0

/-- `filePath.split('/').pop()`. -/
def baseName (p : String) : String :=
  (p.splitOn "/").getLastD ""

/-- Result of processing one configured source: the entry pushed onto the
result (if any) and the value left in the shared `response` variable. -/
structure SrcRes where
  entry : Option (String × Val)
  resp : Option Resp

/-- The per-source body of `loadConfiguredObjects` (one iteration of the
`for (const filePath of ...)` loop): run the retry loop; throw (and be caught
by the per-source handler) if there is no ok response; read the body —
`.text()` on an already-consumed response throws; `JSON.parse` failure
throws; on success push `{ name, content }`. `parse` models `JSON.parse`. -/
def processSource (parse : String → Option Val) (f : Nat → FetchOutcome)
    (path : String) (r0 : Option Resp) : SrcRes :=
  let rr := retryFetch f r0
  match rr.resp with
  | none => ⟨none, none⟩
  | some resp =>
      if resp.ok then
        if resp.consumed then ⟨none, some resp⟩
        else
          let resp' := { resp with consumed := true }
          match parse resp.body with
          | some v => ⟨some (baseName path, v), some resp'⟩
          | none => ⟨none, some resp'⟩
      else ⟨none, some resp⟩

/-- The fold of `processSource` over one configured source list, threading
the shared `response` variable; failed sources contribute nothing. -/
def loadSources (parse : String → Option Val) (F : String → Nat → FetchOutcome) :
    List String → Option Resp → List (String × Val) × Option Resp
  | [], r => ([], r)
  | p :: rest, r =>
      let sr := processSource parse (F p) p r
      let next := loadSources parse F rest sr.resp
      (match sr.entry with
       | some e => e :: next.1
       | none => next.1, next.2)

/-- The parsed YAML config of the service (`config.collections` /
`config.environments`, each used only when it is an array). -/
structure SrvConfig where
  collections : Option (List String)
  environments : Option (List String)

/-- The `{ collections, environments }` result object of
`loadConfiguredObjects` (each entry `{ name, content }`). -/
structure LoadedObjects where
  collections : List (String × Val)
  environments : List (String × Val)

/-- A file in the cache directory: the JSON-decoded manifest or one
per-source blob. The timestamp field of the manifest is never read back and
is omitted. -/
inductive FileData where
  | manifest (colls : List String) (envs : List String)
  | blob (v : Val)

/-- The cache directory, as a map from file name (relative to `CACHE_DIR`)
to content. -/
def CacheFS : Type := String → Option FileData

def emptyFS : CacheFS := fun _ => none

def fsWrite (fs : CacheFS) (k : String) (dat : FileData) : CacheFS :=
  fun n => if n = k then some dat else fs n

/-- `cacheLoadedObjects` from web-standalone/auto-load.js: write one blob per
collection (`collection-NAME`), one per environment (`env-NAME`), and finally
the manifest (`manifest.json`) listing the names. Old blobs are not deleted;
only the manifest is replaced. -/
def cacheLoadedObjects (objects : LoadedObjects) (fs : CacheFS) : CacheFS :=
  let fs1 := objects.collections.foldl
    (fun a c => fsWrite a ("collection-" ++ c.1) (.blob c.2)) fs
  let fs2 := objects.environments.foldl
    (fun a e => fsWrite a ("env-" ++ e.1) (.blob e.2)) fs1
  fsWrite fs2 "manifest.json"
    (.manifest (objects.collections.map Prod.fst) (objects.environments.map Prod.fst))

/-- Reading one cached blob: a missing file or a non-blob file makes
`readFile`/`JSON.parse` throw, which the caller turns into `null`. -/
def readBlob (fs : CacheFS) (k : String) : Option Val :=
  match fs k with
  | some (.blob v) => some v
  | _ => none

/-- `getCachedObjects` from web-standalone/auto-load.js: read and decode the
manifest, then every blob it lists; any failure anywhere returns `null`. -/
def getCachedObjects (fs : CacheFS) : Option LoadedObjects :=
  match fs "manifest.json" with
  | some (.manifest cs es) =>
      match cs.mapM (fun n => (readBlob fs ("collection-" ++ n)).map fun v => (n, v)),
            es.mapM (fun n => (readBlob fs ("env-" ++ n)).map fun v => (n, v)) with
      | some colls, some envs => some ⟨colls, envs⟩
      | _, _ => none
  | _ => none

/-- `loadConfiguredObjects` from web-standalone/auto-load.js. `cfgRead`
models the `readFile` + `yamlLoad` + object-shape check on the fixed config
path (`none` = unreadable, unparsable, or invalid shape; every failure path
returns `null` and leaves the cache untouched). On success both source lists
are fetched with the shared `response` variable threaded through, the result
is cached, and the result object is returned. -/
def loadConfiguredObjects (parse : String → Option Val)
    (F : String → Nat → FetchOutcome) (cfgRead : Option SrvConfig)
    (fs : CacheFS) : Option LoadedObjects × CacheFS :=
  match cfgRead with
  | none => (none, fs)
  | some config =>
      let collPaths := config.collections.getD []
      let resC := loadSources parse F collPaths none
      let envPaths := config.environments.getD []
      let resE := loadSources parse F envPaths resC.2
      let objects : LoadedObjects := ⟨resC.1, resE.1⟩
      (some objects, cacheLoadedObjects objects fs)

/-- The server process state observable through the HTTP surface of app.js:
the in-memory `autoLoadedObjects` variable and the cache directory. -/
structure ServerState where
  autoLoadedObjects : Option LoadedObjects
  fs : CacheFS

/-- The state at process start, before `initializeAutoLoad` completes:
`let autoLoadedObjects = null`. -/
def srvStart (fs0 : CacheFS) : ServerState :=
  ⟨none, fs0⟩

/-- `initializeAutoLoad` (and equally the reload handler): run
`loadConfiguredObjects` and store its result in `autoLoadedObjects`. -/
def srvAfterStartup (parse : String → Option Val)
    (F : String → Nat → FetchOutcome) (cfgRead : Option SrvConfig)
    (s : ServerState) : ServerState :=
  let r := loadConfiguredObjects parse F cfgRead s.fs
  ⟨r.1, r.2⟩

/-- The `GET /api/auto-load/status` response. -/
structure StatusResp where
  initialized : Bool
  hasCollections : Bool
  hasEnvironments : Bool

def statusHandler (s : ServerState) : StatusResp :=
  ⟨s.autoLoadedObjects.isSome,
    (match s.autoLoadedObjects with
     | some o => o.collections.length > 0
     | none => false),
    (match s.autoLoadedObjects with
     | some o => o.environments.length > 0
     | none => false)⟩

/-- The `GET /api/auto-load/objects` response: the cached payload, or an
HTTP 404 (`none`) when `getCachedObjects` returned `null`. -/
def objectsHandler (s : ServerState) : Option LoadedObjects :=
  getCachedObjects s.fs

/-! ### Declarative characterization of the merge policy (spec §4.3) -/

/-- The entry the merge policy puts at an existing entry's position: the
incoming entry with the same key if there is one, otherwise the existing
entry unchanged. -/
def substIncoming (prop : String) (incoming : List Val) (e : Val) : Val :=
  match incoming.find? (fun i => decide (envKeyOf prop i = envKeyOf prop e)) with
  | some i => i
  | none => e

/-- The incoming entries with a key new to `existing`, which the policy
appends at the end. -/
def newEntries (prop : String) (existing incoming : List Val) : List Val :=
  incoming.filter fun i =>
    !(existing.any fun e => decide (envKeyOf prop e = envKeyOf prop i))

/-! ### Concrete instances used by witnesses and counterexamples -/

/-- A dependency record where every collaborator fails or is inert. -/
def noDeps : Deps where
  readLocalFile := fun _ => none
  parseConfigText := fun _ => none
  stringifyJson := fun _ => ""
  convertPostman := fun _ _ => .error "na"
  convertInsomnia := fun _ _ => .error "na"
  convertRestfox := fun _ _ => .error "na"
  convertOpenAPI := fun _ _ => .error "na"
  genIds := fun t => (t, [])
  dispatchSetTree := fun _ _ => none

/-- An enabled configuration matching the documented defaults
(`ENABLED: true`, `SKIP_ON_EXISTING_DATA: true`, `MERGE_ENVIRONMENTS: true`,
`DEFAULT_IMPORT_TYPE: 'Restfox'`). -/
def cfg1 : AutoLoadCfg :=
  ⟨true, "auto-load/config.yaml", true, true, "Restfox"⟩

/-- The spec's merge example entries. -/
def envA1 : Val := .obj [("name", .str "A"), ("v", .num 1)]
def envB2 : Val := .obj [("name", .str "B"), ("v", .num 2)]
def envA9 : Val := .obj [("name", .str "A"), ("v", .num 9)]

/-- A collection file for the partial-success witness. -/
def fileB : FileContent := ⟨"b", .vnull, .json⟩

/-- Dependencies for the partial-success witness: the config lists sources
`a` and `b`; reading `a` fails, reading `b` succeeds and converts to a
one-node tree; the final dispatch succeeds. -/
def deps4 : Deps := { noDeps with
  readLocalFile := fun p =>
    if p = "b" then some fileB
    else if p = cfg1.configFile then some ⟨"config.yaml", .str "x", .text⟩
    else none,
  parseConfigText := fun _ => some ⟨some ["a", "b"], none⟩,
  convertRestfox := fun _ _ => .ok ⟨[.str "n1"], none⟩ }

/-- Dependencies for the commit-failure runs: one collection source whose
Restfox export embeds two environments, and a store whose final dispatch
reports an error. -/
def depsFail : Deps := { noDeps with
  readLocalFile := fun p =>
    if p = "c1" then some ⟨"c1", .obj [("environments", .arr [envA9, envB2])], .json⟩
    else if p = cfg1.configFile then some ⟨"config.yaml", .str "x", .text⟩
    else none,
  parseConfigText := fun _ => some ⟨some ["c1"], none⟩,
  convertRestfox := fun _ _ => .ok ⟨[.str "n1"], some []⟩,
  dispatchSetTree := fun _ _ => some "commit failed" }

/-- A fetch attempt that failed: either the promise rejected or the response
was not ok. -/
def fetchFailed : FetchOutcome → Bool
  | .thrown => true
  | .resp ok _ => !ok

/-- Invariant of the shared `response` variable between sources: any ok
response it carries has already had its body consumed (a fresh ok response is
always consumed by `.text()` immediately after its retry loop). -/
def respInv (r : Option Resp) : Prop :=
  ∀ resp, r = some resp → resp.ok = true → resp.consumed = true

/-- A `JSON.parse` stub that always fails. -/
def parseFail : String → Option Val := fun _ => none

/-- A network where every fetch attempt throws. -/
def fetchAlwaysThrown : String → Nat → FetchOutcome := fun _ _ => .thrown

/-- A loaded-object set with one collection entry. -/
def objs1 : LoadedObjects := ⟨[("a", .num 1)], []⟩

/-- A loaded-object set whose two collection sources share the same file
name (two URLs ending in the same segment). -/
def objsDup : LoadedObjects := ⟨[("a", .num 1), ("a", .num 2)], []⟩

/-! ## Theorems -/

/-! ### C1 — config-resolution failure -/

/-- C1 (counterexample): with an enabled configuration whose config file
cannot be read, `autoLoadData` terminates with `success = true` and no
error — not, as claimed, with `success = false` and a non-empty error. -/
theorem configFailure_reports_success :
    readConfigFile noDeps cfg1.configFile = none ∧
    (autoLoadData noDeps cfg1 "ws" none).result.success = true ∧
    (autoLoadData noDeps cfg1 "ws" none).result.error = none :=
  ⟨rfl, rfl, rfl⟩

/-- C1 (amended): for every run in which config resolution fails (file
absent, unreadable, or parsed to an invalid shape, i.e. `readConfigFile`
returns `null`), `autoLoadData` terminates reporting success with zero
counters and no error, having read nothing but the config file itself — in
particular no source files are read and no state is mutated. -/
theorem configFailure_silent_skip (d : Deps) (cfg : AutoLoadCfg)
    (workspaceId : String) (ws0 : Option (List Val))
    (henabled : cfg.enabled = true)
    (hcfg : readConfigFile d cfg.configFile = none) :
    autoLoadData d cfg workspaceId ws0 =
      ⟨⟨true, none, 0, 0⟩, ws0, [], none, [cfg.configFile]⟩ := by
  simp [autoLoadData, henabled, hcfg]

/-- C1 witness: the amended theorem at a concrete failing reader. -/
theorem configFailure_silent_skip_witness :
    cfg1.enabled = true ∧ readConfigFile noDeps cfg1.configFile = none ∧
    autoLoadData noDeps cfg1 "ws" none =
      ⟨⟨true, none, 0, 0⟩, none, [], none, [cfg1.configFile]⟩ :=
  ⟨rfl, rfl, configFailure_silent_skip noDeps cfg1 "ws" none rfl rfl⟩

/-! ### C2 — skipOnExistingData short-circuit -/

/-- C2: with `skipOnExistingData = true` and a non-empty collection tree the
orchestrator short-circuits before any I/O: it performs zero file reads and
returns exactly `success: true, collectionsLoaded: 0, environmentsLoaded: 0`,
leaving the workspace untouched. -/
theorem skip_on_existing_data_short_circuits (d : Deps) (cfg : AutoLoadCfg)
    (workspaceId : String) (ws0 : Option (List Val)) (collectionTree : List Val)
    (hskip : cfg.skipOnExistingData = true)
    (hne : collectionTree ≠ []) :
    orchestratorRun d cfg workspaceId ws0 collectionTree =
      ⟨⟨true, none, 0, 0⟩, ws0, [], none, []⟩ := by
  have hlen : 0 < collectionTree.length := List.length_pos.mpr hne
  cases henabled : cfg.enabled <;>
    simp [orchestratorRun, shouldSkipAutoLoad, henabled, hskip, hlen]

/-- C2 witness: the short-circuit at a concrete one-node tree. -/
theorem skip_on_existing_data_witness :
    cfg1.skipOnExistingData = true ∧ ([Val.vnull] : List Val) ≠ [] ∧
    orchestratorRun noDeps cfg1 "ws" none [Val.vnull] =
      ⟨⟨true, none, 0, 0⟩, none, [], none, []⟩ :=
  ⟨rfl, by simp, skip_on_existing_data_short_circuits noDeps cfg1 "ws" none
    [Val.vnull] rfl (by simp)⟩

/-! ### C3 — unsupported format yields an empty result -/

/-- C3: for every file content and every format tag outside the supported
set, `processImportFile` returns (does not throw) the empty result: empty
tree, empty plugin list, empty environment list. -/
theorem unsupported_format_empty_result (d : Deps) (fileContent : FileContent)
    (importType workspaceId : String)
    (hunsupported : importType ∉ supportedImportTypes) :
    processImportFile d fileContent importType workspaceId = .ok ⟨[], [], []⟩ := by
  simp only [supportedImportTypes, List.mem_cons, List.not_mem_nil, or_false,
    not_or] at hunsupported
  obtain ⟨h1, h2, h3, h4⟩ := hunsupported
  unfold processImportFile
  simp [h1, h2, h3, h4, Except.map]

/-- C3 witness: a concrete unrecognized tag. -/
theorem unsupported_format_witness :
    "HAR" ∉ supportedImportTypes ∧
    processImportFile noDeps fileB "HAR" "ws" = .ok ⟨[], [], []⟩ :=
  ⟨by decide, unsupported_format_empty_result noDeps fileB "HAR" "ws" (by decide)⟩

/-! ### Helper lemmas about the final commit step -/

theorem finishRun_failure_shape (d : Deps) (st : RunSt) (reads : List String)
    (h : (finishRun d st reads).result.success = false) :
    (finishRun d st reads).result.collectionsLoaded = 0 ∧
    (finishRun d st reads).result.environmentsLoaded = 0 := by
  unfold finishRun okOutcome at *
  split at h
  · split at h
    · split at h <;> simp_all
    · simp_all
  · simp_all

theorem finishRun_dispatch_error (d : Deps) (st : RunSt) (reads : List String)
    (tp : List Val × List Val) (msg : String)
    (hdisp : (finishRun d st reads).dispatched = some tp)
    (herr : d.dispatchSetTree tp.1 tp.2 = some msg) (hne : msg ≠ "") :
    (finishRun d st reads).result = ⟨false, some msg, 0, 0⟩ := by
  unfold finishRun okOutcome at *
  split at hdisp
  · split at hdisp
    case _ m hm =>
      split at hdisp <;>
        · simp only [Outcome.mk.injEq] at hdisp ⊢
          obtain rfl : tp = (st.allTree, st.allPlugins) := by simp_all
          rw [hm] at herr
          simp_all
    case _ hm =>
      obtain rfl : tp = (st.allTree, st.allPlugins) := by simp_all
      rw [hm] at herr
      simp_all
  · simp_all

theorem finishRun_dispatch_ok (d : Deps) (st : RunSt) (reads : List String)
    (h : d.dispatchSetTree st.allTree st.allPlugins = none) :
    (finishRun d st reads).result = ⟨true, none, st.totalColl, st.totalEnv⟩ := by
  unfold finishRun okOutcome
  split
  · simp only [h]
  · rfl

theorem collStep_ok (d : Deps) (cfg : AutoLoadCfg) (wsid : String) (st : RunSt)
    (fc : FileContent) (r : ProcessRes)
    (hproc : processImportFile d fc cfg.defaultImportType wsid = .ok r) :
    (collStep d cfg wsid st fc).totalColl = st.totalColl + 1 ∧
    (collStep d cfg wsid st fc).allTree = st.allTree ++ r.collectionTree ∧
    (collStep d cfg wsid st fc).allPlugins = st.allPlugins ++ r.plugins := by
  unfold collStep
  rw [hproc]
  split
  next heq => simp at heq
  next r2 heq =>
    injection heq with h
    subst h
    split <;> simp

theorem autoLoadData_shape (d : Deps) (cfg : AutoLoadCfg) (wsid : String)
    (ws0 : Option (List Val)) :
    (autoLoadData d cfg wsid ws0).result = ⟨true, none, 0, 0⟩ ∨
    ∃ st reads, autoLoadData d cfg wsid ws0 = finishRun d st reads := by
  unfold autoLoadData
  split
  · exact .inl rfl
  · split
    · exact .inl rfl
    · exact .inr ⟨_, _, rfl⟩

/-! ### C4 — a failing source is skipped, the rest still load -/

/-- C4: with an enabled config listing two collection sources where reading
the first fails (reader reports not-found) and the second resolves,
processes, and commits successfully, `autoLoadData` reports
`collectionsLoaded = 1` and `success = true`. -/
theorem partial_success_counts (d : Deps) (cfg : AutoLoadCfg) (wsid : String)
    (ws0 : Option (List Val)) (p1 p2 : String) (f : FileContent) (r : ProcessRes)
    (henabled : cfg.enabled = true)
    (hcfg : readConfigFile d cfg.configFile = some ⟨some [p1, p2], none⟩)
    (h1 : d.readLocalFile p1 = none)
    (h2 : d.readLocalFile p2 = some f)
    (hproc : processImportFile d f cfg.defaultImportType wsid = .ok r)
    (hdisp : d.dispatchSetTree r.collectionTree r.plugins = none) :
    (autoLoadData d cfg wsid ws0).result.collectionsLoaded = 1 ∧
    (autoLoadData d cfg wsid ws0).result.success = true := by
  obtain ⟨hc, ht, hp⟩ := collStep_ok d cfg wsid (initSt ws0) f r hproc
  have hd2 : d.dispatchSetTree (collStep d cfg wsid (initSt ws0) f).allTree
      (collStep d cfg wsid (initSt ws0) f).allPlugins = none := by
    rw [ht, hp]; simpa [initSt] using hdisp
  unfold autoLoadData
  simp only [henabled, hcfg]
  simp only [runCollLoop, runEnvLoop, readMultipleFiles, List.filterMap, h1, h2,
    List.length_cons, List.length_nil]
  rw [if_neg (by simp), if_pos (by simp)]
  simp only [List.foldl_cons, List.foldl_nil]
  rw [finishRun_dispatch_ok d _ _ hd2, hc]
  simp [initSt]

/-- C4 witness: the concrete two-source run (`a` unreadable, `b` loads). -/
theorem partial_success_witness :
    cfg1.enabled = true ∧
    readConfigFile deps4 cfg1.configFile = some ⟨some ["a", "b"], none⟩ ∧
    deps4.readLocalFile "a" = none ∧
    deps4.readLocalFile "b" = some fileB ∧
    processImportFile deps4 fileB cfg1.defaultImportType "ws" =
      .ok ⟨[.str "n1"], [], []⟩ ∧
    deps4.dispatchSetTree [.str "n1"] [] = none ∧
    ((autoLoadData deps4 cfg1 "ws" none).result.collectionsLoaded = 1 ∧
      (autoLoadData deps4 cfg1 "ws" none).result.success = true) :=
  ⟨rfl, rfl, rfl, rfl, rfl, rfl,
    partial_success_counts deps4 cfg1 "ws" none "a" "b" fileB
      ⟨[.str "n1"], [], []⟩ rfl rfl rfl rfl rfl rfl⟩

/-! ### C6 — a store-reported dispatch error fails the run -/

/-- C6: for every run in which collection content was accumulated and
dispatched (`dispatched = some tp`) and the store reports a non-empty
`error` for that batch, `autoLoadData` returns `success = false` with the
store's message as the error (and zero counters). -/
theorem dispatch_error_fails_run (d : Deps) (cfg : AutoLoadCfg) (wsid : String)
    (ws0 : Option (List Val)) (tp : List Val × List Val) (msg : String)
    (hdisp : (autoLoadData d cfg wsid ws0).dispatched = some tp)
    (herr : d.dispatchSetTree tp.1 tp.2 = some msg) (hne : msg ≠ "") :
    (autoLoadData d cfg wsid ws0).result = ⟨false, some msg, 0, 0⟩ := by
  unfold autoLoadData at hdisp ⊢
  split at hdisp
  next henb => simp at hdisp
  next henb =>
    split at hdisp
    next heq => simp at hdisp
    next cd heq =>
      rw [if_neg henb]
      exact finishRun_dispatch_error d _ _ tp msg hdisp herr hne

/-- C6 witness: a concrete run whose store rejects the batch. -/
theorem dispatch_error_witness :
    (autoLoadData depsFail cfg1 "ws" (some [envA1])).dispatched =
      some ([Val.str "n1"], []) ∧
    depsFail.dispatchSetTree [Val.str "n1"] [] = some "commit failed" ∧
    ("commit failed" : String) ≠ "" ∧
    (autoLoadData depsFail cfg1 "ws" (some [envA1])).result =
      ⟨false, some "commit failed", 0, 0⟩ :=
  ⟨rfl, rfl, by decide,
    dispatch_error_fails_run depsFail cfg1 "ws" (some [envA1])
      ([Val.str "n1"], []) "commit failed" rfl rfl (by decide)⟩

/-! ### C10 — a failed run reports zero counters, committed merges stay -/

/-- C10: every failing `autoLoadData` run reports
`collectionsLoaded = 0` and `environmentsLoaded = 0`; yet in the concrete
commit-failure run below, the per-source environment merge had already been
committed to the workspace store (`commits` non-empty) and the workspace
environments keep the merged value — the failure result undercounts work
that durably changed workspace state. -/
theorem failure_result_zero_counters :
    (∀ (d : Deps) (cfg : AutoLoadCfg) (wsid : String) (ws0 : Option (List Val)),
      (autoLoadData d cfg wsid ws0).result.success = false →
      (autoLoadData d cfg wsid ws0).result.collectionsLoaded = 0 ∧
      (autoLoadData d cfg wsid ws0).result.environmentsLoaded = 0) ∧
    (autoLoadData depsFail cfg1 "ws" (some [envA1])).result =
      ⟨false, some "commit failed", 0, 0⟩ ∧
    (autoLoadData depsFail cfg1 "ws" (some [envA1])).commits =
      [("ws", [envA9, envB2])] ∧
    (autoLoadData depsFail cfg1 "ws" (some [envA1])).wsEnvs =
      some [envA9, envB2] := by
  refine ⟨?_, rfl, rfl, rfl⟩
  intro d cfg wsid ws0 h
  rcases autoLoadData_shape d cfg wsid ws0 with hsh | ⟨st, reads, hsh⟩
  · rw [hsh] at h; simp at h
  · rw [hsh] at h ⊢
    exact finishRun_failure_shape d st reads h

/-- C10 witness: the universally quantified part at the concrete
commit-failure run. -/
theorem failure_result_zero_counters_witness :
    (autoLoadData depsFail cfg1 "ws" (some [envA1])).result.success = false ∧
    ((autoLoadData depsFail cfg1 "ws" (some [envA1])).result.collectionsLoaded = 0 ∧
      (autoLoadData depsFail cfg1 "ws" (some [envA1])).result.environmentsLoaded = 0) :=
  ⟨rfl, failure_result_zero_counters.1 depsFail cfg1 "ws" (some [envA1]) rfl⟩

/-! ### C5 — the merge policy

Helper lemmas characterizing `upsertByKey` and the fold over incoming
entries, leading to the declarative map-plus-append form of the policy. -/

theorem upsert_cons_eq (prop : String) (i e : Val) (rest : List Val)
    (h : envKeyOf prop e = envKeyOf prop i) :
    upsertByKey prop i (e :: rest) = i :: rest := by
  simp [upsertByKey, h]

theorem upsert_cons_ne (prop : String) (i e : Val) (rest : List Val)
    (h : envKeyOf prop e ≠ envKeyOf prop i) :
    upsertByKey prop i (e :: rest) = e :: upsertByKey prop i rest := by
  simp [upsertByKey, h]

theorem find?_eq_none_of_key_notin (prop : String) (r : Val) (l : List Val)
    (h : envKeyOf prop r ∉ l.map (envKeyOf prop)) :
    l.find? (fun i => decide (envKeyOf prop i = envKeyOf prop r)) = none := by
  rw [List.find?_eq_none]
  intro x hx
  simp only [decide_eq_true_eq]
  intro hk
  exact h (hk ▸ List.mem_map_of_mem _ hx)

/-- Folding the incoming entries into `e :: rest` substitutes the head (the
first incoming entry matching `e`'s key wins, and with distinct incoming keys
there is at most one) and recurses on the tail with the head's matches
removed. -/
theorem cons_merge (prop : String) :
    ∀ (inc : List Val) (e : Val) (rest : List Val),
    ((inc.map (envKeyOf prop)).Nodup) →
    mergeArraysByProperty (e :: rest) inc prop
      = substIncoming prop inc e ::
        mergeArraysByProperty rest
          (inc.filter fun i => !decide (envKeyOf prop i = envKeyOf prop e)) prop := by
  intro inc
  induction inc with
  | nil => intro e rest _; rfl
  | cons i inc2 ih =>
    intro e rest hnd
    rw [List.map_cons, List.nodup_cons] at hnd
    obtain ⟨hni, hnd2⟩ := hnd
    by_cases hke : envKeyOf prop e = envKeyOf prop i
    · have lhs : mergeArraysByProperty (e :: rest) (i :: inc2) prop
          = mergeArraysByProperty (i :: rest) inc2 prop := by
        simp [mergeArraysByProperty, upsert_cons_eq prop i e rest hke]
      rw [lhs, ih i rest hnd2]
      congr 1
      · unfold substIncoming
        rw [find?_eq_none_of_key_notin prop i inc2 hni]
        rw [List.find?_cons_of_pos _ (by simp [hke])]
      · rw [List.filter_cons_of_neg (by simp [hke]), hke]
    · have lhs : mergeArraysByProperty (e :: rest) (i :: inc2) prop
          = mergeArraysByProperty (e :: upsertByKey prop i rest) inc2 prop := by
        simp [mergeArraysByProperty, upsert_cons_ne prop i e rest hke]
      rw [lhs, ih e (upsertByKey prop i rest) hnd2]
      congr 1
      · unfold substIncoming
        rw [List.find?_cons_of_neg _ (by simp; exact fun h => hke h.symm)]
      · rw [List.filter_cons_of_pos (by simp; exact fun h => hke h.symm)]
        simp [mergeArraysByProperty]

/-- Merging into an empty existing list appends the incoming entries in
order (given distinct incoming keys). -/
theorem merge_nil (prop : String) :
    ∀ (inc : List Val), ((inc.map (envKeyOf prop)).Nodup) →
    mergeArraysByProperty [] inc prop = inc := by
  intro inc
  induction inc with
  | nil => intro _; rfl
  | cons i inc2 ih =>
    intro hnd
    rw [List.map_cons, List.nodup_cons] at hnd
    obtain ⟨hni, hnd2⟩ := hnd
    have h1 : mergeArraysByProperty [] (i :: inc2) prop
        = mergeArraysByProperty [i] inc2 prop := by
      simp [mergeArraysByProperty, upsertByKey]
    rw [h1, cons_merge prop inc2 i [] hnd2]
    have hflt : inc2.filter
        (fun x => !decide (envKeyOf prop x = envKeyOf prop i)) = inc2 := by
      rw [List.filter_eq_self]
      intro x hx
      simp only [Bool.not_eq_true', decide_eq_false_iff_not]
      exact fun hk => hni (hk ▸ List.mem_map_of_mem _ hx)
    rw [hflt, ih hnd2]
    congr 1
    unfold substIncoming
    rw [find?_eq_none_of_key_notin prop i inc2 hni]

theorem find?_filter_ne (prop : String) (r e : Val)
    (hre : envKeyOf prop r ≠ envKeyOf prop e) :
    ∀ (inc : List Val),
    (inc.filter fun i => !decide (envKeyOf prop i = envKeyOf prop e)).find?
        (fun i => decide (envKeyOf prop i = envKeyOf prop r))
      = inc.find? (fun i => decide (envKeyOf prop i = envKeyOf prop r)) := by
  intro inc
  induction inc with
  | nil => rfl
  | cons i inc2 ih =>
    by_cases hie : envKeyOf prop i = envKeyOf prop e
    · rw [List.filter_cons_of_neg (by simp [hie])]
      rw [List.find?_cons_of_neg _ (by simp; exact fun h => hre (h.symm.trans hie))]
      exact ih
    · rw [List.filter_cons_of_pos (by simp [hie])]
      by_cases hir : envKeyOf prop i = envKeyOf prop r
      · rw [List.find?_cons_of_pos _ (by simp [hir]),
          List.find?_cons_of_pos _ (by simp [hir])]
      · rw [List.find?_cons_of_neg _ (by simp [hir]),
          List.find?_cons_of_neg _ (by simp [hir])]
        exact ih

theorem subst_filter_ne (prop : String) (r e : Val) (inc : List Val)
    (hre : envKeyOf prop r ≠ envKeyOf prop e) :
    substIncoming prop
        (inc.filter fun i => !decide (envKeyOf prop i = envKeyOf prop e)) r
      = substIncoming prop inc r := by
  unfold substIncoming
  rw [find?_filter_ne prop r e hre inc]

theorem newEntries_cons (prop : String) (e : Val) (rest inc : List Val) :
    newEntries prop (e :: rest) inc
      = newEntries prop rest
          (inc.filter fun i => !decide (envKeyOf prop i = envKeyOf prop e)) := by
  unfold newEntries
  rw [List.filter_filter]
  apply List.filter_congr
  intro x _
  by_cases h1 : envKeyOf prop e = envKeyOf prop x
  · simp [h1, List.any_cons]
  · simp [h1, List.any_cons]
    exact fun _ h => h1 h.symm

/-- C5: for every pair of entry lists with distinct keys, merging by key
satisfies the spec's policy — an incoming entry whose key exists in
`existing` replaces that entry at its original position
(`map (substIncoming ...)`), incoming entries with a new key are appended at
the end (`newEntries`), and existing entries with no incoming counterpart
are preserved unchanged (`substIncoming` leaves them alone). -/
theorem merge_matches_policy :
    ∀ (existing incoming : List Val) (prop : String),
    ((existing.map (envKeyOf prop)).Nodup) →
    ((incoming.map (envKeyOf prop)).Nodup) →
    mergeArraysByProperty existing incoming prop
      = existing.map (substIncoming prop incoming)
        ++ newEntries prop existing incoming := by
  intro existing
  induction existing with
  | nil =>
    intro incoming prop _ hinc
    rw [merge_nil prop incoming hinc]
    simp [newEntries, List.any_nil]
  | cons e rest ih =>
    intro incoming prop hex hinc
    rw [List.map_cons, List.nodup_cons] at hex
    obtain ⟨hne, hex2⟩ := hex
    rw [cons_merge prop incoming e rest hinc]
    have hf : ((incoming.filter fun i =>
        !decide (envKeyOf prop i = envKeyOf prop e)).map (envKeyOf prop)).Nodup :=
      (hinc.sublist (List.Sublist.map _ (List.filter_sublist _)))
    rw [ih _ prop hex2 hf]
    rw [List.map_cons, List.cons_append]
    congr 1
    rw [newEntries_cons prop e rest incoming]
    congr 1
    apply List.map_congr_left
    intro r hr
    have hre : envKeyOf prop r ≠ envKeyOf prop e :=
      fun h => hne (h ▸ List.mem_map_of_mem _ hr)
    exact subst_filter_ne prop r e incoming hre

/-- C5 witness: the spec's example —
`merge([A:1, B:2], [A:9], "name") = [A:9, B:2]`. -/
theorem merge_matches_policy_witness :
    (([envA1, envB2].map (envKeyOf "name")).Nodup) ∧
    (([envA9].map (envKeyOf "name")).Nodup) ∧
    mergeArraysByProperty [envA1, envB2] [envA9] "name"
      = [envA1, envB2].map (substIncoming "name" [envA9])
        ++ newEntries "name" [envA1, envB2] [envA9] ∧
    mergeArraysByProperty [envA1, envB2] [envA9] "name" = [envA9, envB2] :=
  ⟨by decide, by decide,
    merge_matches_policy [envA1, envB2] [envA9] "name" (by decide) (by decide), rfl⟩

/-! ### C7 — the per-source retry loop of the readiness service -/

theorem retryAux_bounds (f : Nat → FetchOutcome) :
    ∀ (fuel idx : Nat) (r : Option Resp),
    (retryAux f fuel idx r).calls ≤ fuel ∧
    (0 < fuel → (retryAux f fuel idx r).sleeps + 1 = (retryAux f fuel idx r).calls) := by
  intro fuel
  induction fuel with
  | zero => intro idx r; simp [retryAux]
  | succ fuel ih =>
    intro idx r
    unfold retryAux
    match hf : f idx with
    | .resp true body => simp
    | .resp false body =>
      by_cases h0 : fuel = 0
      · simp [h0]
      · obtain ⟨ihc, ihs⟩ := ih (idx + 1) (some ⟨false, body, false⟩)
        simp only [if_neg h0]
        constructor
        · omega
        · intro _
          have := ihs (Nat.pos_of_ne_zero h0)
          omega
    | .thrown =>
      by_cases h0 : fuel = 0
      · simp [h0]
      · obtain ⟨ihc, ihs⟩ := ih (idx + 1) r
        simp only [if_neg h0]
        constructor
        · omega
        · intro _
          have := ihs (Nat.pos_of_ne_zero h0)
          omega

/-- When every allowed attempt fails, the retry loop leaves the carried
`response` untouched (all attempts threw) or a fresh not-ok response. -/
theorem retryAux_allFail (f : Nat → FetchOutcome) :
    ∀ (fuel idx : Nat) (r0 : Option Resp),
    (∀ i, idx ≤ i → i < idx + fuel → fetchFailed (f i) = true) →
    (retryAux f fuel idx r0).resp = r0 ∨
    ∃ b, (retryAux f fuel idx r0).resp = some ⟨false, b, false⟩ := by
  intro fuel
  induction fuel with
  | zero => intro idx r0 _; exact .inl rfl
  | succ fuel ih =>
    intro idx r0 hfail
    have hidx := hfail idx (Nat.le_refl idx) (by omega)
    unfold retryAux
    match hf : f idx with
    | .resp true body => rw [hf] at hidx; simp [fetchFailed] at hidx
    | .resp false body =>
      by_cases h0 : fuel = 0
      · simp [h0]
      · simp only [if_neg h0]
        rcases ih (idx + 1) (some ⟨false, body, false⟩)
          (fun i hi1 hi2 => hfail i (by omega) (by omega)) with h | ⟨b, hb⟩
        · exact .inr ⟨body, h⟩
        · exact .inr ⟨b, hb⟩
    | .thrown =>
      by_cases h0 : fuel = 0
      · simp [h0]
      · simp only [if_neg h0]
        rcases ih (idx + 1) r0
          (fun i hi1 hi2 => hfail i (by omega) (by omega)) with h | ⟨b, hb⟩
        · exact .inl h
        · exact .inr ⟨b, hb⟩

/-- A source whose attempts all fail contributes no entry: the final
`response` is either fresh and not ok, absent, carried not ok, or carried ok
but already consumed — every case throws before the push and is caught by
the per-source handler. -/
theorem processSource_allFail (parse : String → Option Val) (f : Nat → FetchOutcome)
    (path : String) (r0 : Option Resp)
    (hinv : respInv r0)
    (hfail : ∀ i, i < maxAttempts → fetchFailed (f i) = true) :
    (processSource parse f path r0).entry = none := by
  simp only [processSource, retryFetch]
  rcases retryAux_allFail f maxAttempts 0 r0
    (fun i hi1 hi2 => hfail i (by omega)) with h | ⟨b, hb⟩
  · rw [h]
    match hr : r0 with
    | none => rfl
    | some resp =>
      by_cases hok : resp.ok
      · have hc := hinv resp rfl hok
        simp [hok, hc]
      · simp [hok]
  · rw [hb]
    simp

/-- Processing a source preserves the consumed-ok-response invariant of the
shared `response` variable: an ok response is consumed immediately after its
retry loop, so later sources can never re-read it. -/
theorem processSource_inv (parse : String → Option Val) (f : Nat → FetchOutcome)
    (path : String) (r0 : Option Resp) :
    respInv (processSource parse f path r0).resp := by
  intro resp h hok
  simp only [processSource, retryFetch] at h
  rcases hr : (retryAux f maxAttempts 0 r0).resp with _ | r
  · rw [hr] at h; simp at h
  · rw [hr] at h
    by_cases hokr : r.ok
    · by_cases hc : r.consumed
      · simp [hokr, hc] at h
        rw [← h]
        exact hc
      · rcases hp : parse r.body with _ | v <;>
          · simp [hokr, hc, hp] at h
            rw [← h]
    · simp [hokr] at h
      rw [← h] at hok
      exact absurd hok hokr

theorem loadSources_skip (parse : String → Option Val)
    (F : String → Nat → FetchOutcome) (p : String) (rest : List String)
    (r0 : Option Resp)
    (h : (processSource parse (F p) p r0).entry = none) :
    loadSources parse F (p :: rest) r0
      = loadSources parse F rest (processSource parse (F p) p r0).resp := by
  simp only [loadSources, h]

/-- C7: the per-source retry loop of `loadConfiguredObjects` performs at
most 60 fetch attempts with a 1-second sleep between consecutive attempts
(`sleeps + 1 = calls`), so it always terminates; and a source whose allowed
attempts all fail contributes nothing to the result while the remaining
sources are still processed (the fold simply continues on the tail). -/
theorem retry_bounded_failed_source_skipped :
    (∀ (f : Nat → FetchOutcome) (r0 : Option Resp),
      (retryFetch f r0).calls ≤ maxAttempts ∧
      (retryFetch f r0).sleeps + 1 = (retryFetch f r0).calls) ∧
    (∀ (parse : String → Option Val) (F : String → Nat → FetchOutcome)
      (p : String) (rest : List String) (r0 : Option Resp),
      respInv r0 →
      (∀ i, i < maxAttempts → fetchFailed (F p i) = true) →
      (processSource parse (F p) p r0).entry = none ∧
      loadSources parse F (p :: rest) r0
        = loadSources parse F rest (processSource parse (F p) p r0).resp) := by
  constructor
  · intro f r0
    obtain ⟨hc, hs⟩ := retryAux_bounds f maxAttempts 0 r0
    exact ⟨hc, hs (by simp [maxAttempts])⟩
  · intro parse F p rest r0 hinv hfail
    have he := processSource_allFail parse (F p) p r0 hinv hfail
    exact ⟨he, loadSources_skip parse F p rest r0 he⟩

/-- C7 witness: a source whose every attempt throws, followed by another
source. -/
theorem retry_bounded_failed_source_skipped_witness :
    ((retryFetch (fetchAlwaysThrown "x") none).calls ≤ maxAttempts ∧
      (retryFetch (fetchAlwaysThrown "x") none).sleeps + 1
        = (retryFetch (fetchAlwaysThrown "x") none).calls) ∧
    ((processSource parseFail (fetchAlwaysThrown "x") "x" none).entry = none ∧
      loadSources parseFail fetchAlwaysThrown ["x", "y"] none
        = loadSources parseFail fetchAlwaysThrown ["y"]
            (processSource parseFail (fetchAlwaysThrown "x") "x" none).resp) :=
  ⟨retry_bounded_failed_source_skipped.1 (fetchAlwaysThrown "x") none,
    retry_bounded_failed_source_skipped.2 parseFail fetchAlwaysThrown "x" ["y"] none
      (fun resp h => by simp at h) (fun i _ => rfl)⟩

/-! ### Cache write/read lemmas (C8, C9) -/

theorem append_left_cancel_str (t n m : String) (h : t ++ n = t ++ m) : n = m := by
  have h2 := congrArg String.data h
  simp only [String.data_append] at h2
  exact String.ext (List.append_cancel_left h2)

theorem collKey_ne_manifest (n : String) :
    ("collection-" ++ n : String) ≠ "manifest.json" := by
  intro h
  have h2 := congrArg String.data h
  simp [String.data_append] at h2

theorem envKey_ne_manifest (n : String) :
    ("env-" ++ n : String) ≠ "manifest.json" := by
  intro h
  have h2 := congrArg String.data h
  simp [String.data_append] at h2

theorem envKey_ne_collKey (n m : String) :
    ("env-" ++ n : String) ≠ "collection-" ++ m := by
  intro h
  have h2 := congrArg String.data h
  simp [String.data_append] at h2

theorem fsWrite_eq (fs : CacheFS) (k : String) (dat : FileData) :
    fsWrite fs k dat k = some dat :=
  if_pos rfl

theorem fsWrite_ne (fs : CacheFS) (k : String) (dat : FileData) (n : String)
    (h : n ≠ k) : fsWrite fs k dat n = fs n :=
  if_neg h

theorem foldWrite_notmem (tag : String) :
    ∀ (l : List (String × Val)) (fs : CacheFS) (k : String),
    (∀ c ∈ l, tag ++ c.1 ≠ k) →
    (l.foldl (fun a c => fsWrite a (tag ++ c.1) (.blob c.2)) fs) k = fs k := by
  intro l
  induction l with
  | nil => intro fs k _; rfl
  | cons c rest ih =>
    intro fs k h
    rw [List.foldl_cons]
    rw [ih _ k (fun x hx => h x (List.mem_cons_of_mem c hx))]
    unfold fsWrite
    rw [if_neg]
    exact fun hk => h c (List.mem_cons_self c rest) (hk ▸ rfl)

/-- With distinct names, the blob written for an entry survives the writes
of the later entries, so it is exactly what a reader finds. -/
theorem foldWrite_mem (tag : String) :
    ∀ (l : List (String × Val)) (fs : CacheFS) (n : String) (v : Val),
    ((l.map Prod.fst).Nodup) → (n, v) ∈ l →
    (l.foldl (fun a c => fsWrite a (tag ++ c.1) (.blob c.2)) fs) (tag ++ n)
      = some (.blob v) := by
  intro l
  induction l with
  | nil => intro fs n v _ hmem; simp at hmem
  | cons c rest ih =>
    intro fs n v hnd hmem
    rw [List.map_cons, List.nodup_cons] at hnd
    obtain ⟨hnotin, hnd2⟩ := hnd
    rw [List.foldl_cons]
    rcases List.mem_cons.mp hmem with heq | hmem2
    · subst heq
      rw [foldWrite_notmem tag rest _ _ ?hne]
      · unfold fsWrite
        rw [if_pos rfl]
      case hne =>
        intro x hx hk
        have hxn : x.1 = n := append_left_cancel_str tag x.1 n hk
        have hxm : x.1 ∈ rest.map Prod.fst := List.mem_map_of_mem _ hx
        rw [hxn] at hxm
        exact hnotin hxm
    · exact ih _ n v hnd2 hmem2

theorem cache_manifest_read (objs : LoadedObjects) (fs : CacheFS) :
    (cacheLoadedObjects objs fs) "manifest.json"
      = some (.manifest (objs.collections.map Prod.fst)
          (objs.environments.map Prod.fst)) := by
  simp only [cacheLoadedObjects]
  exact fsWrite_eq _ _ _

theorem cache_collBlob (objs : LoadedObjects) (fs : CacheFS) (n : String) (v : Val)
    (hnd : (objs.collections.map Prod.fst).Nodup)
    (hmem : (n, v) ∈ objs.collections) :
    readBlob (cacheLoadedObjects objs fs) ("collection-" ++ n) = some v := by
  have hv : (cacheLoadedObjects objs fs) ("collection-" ++ n) = some (.blob v) := by
    simp only [cacheLoadedObjects]
    rw [fsWrite_ne _ _ _ _ (collKey_ne_manifest n)]
    rw [foldWrite_notmem "env-" objs.environments _ _
      (fun x _ => envKey_ne_collKey x.1 n)]
    exact foldWrite_mem "collection-" objs.collections fs n v hnd hmem
  unfold readBlob
  rw [hv]

theorem cache_envBlob (objs : LoadedObjects) (fs : CacheFS) (n : String) (v : Val)
    (hnd : (objs.environments.map Prod.fst).Nodup)
    (hmem : (n, v) ∈ objs.environments) :
    readBlob (cacheLoadedObjects objs fs) ("env-" ++ n) = some v := by
  have hv : (cacheLoadedObjects objs fs) ("env-" ++ n) = some (.blob v) := by
    simp only [cacheLoadedObjects]
    rw [fsWrite_ne _ _ _ _ (envKey_ne_manifest n)]
    exact foldWrite_mem "env-" objs.environments _ n v hnd hmem
  unfold readBlob
  rw [hv]

theorem mapM_names (fs : CacheFS) (tag : String) :
    ∀ (l : List (String × Val)),
    (∀ p ∈ l, readBlob fs (tag ++ p.1) = some p.2) →
    (l.map Prod.fst).mapM (fun n => (readBlob fs (tag ++ n)).map fun v => (n, v))
      = some l := by
  intro l
  induction l with
  | nil => intro _; rfl
  | cons p rest ih =>
    intro h
    rw [List.map_cons, List.mapM_cons]
    rw [h p (List.mem_cons_self p rest)]
    rw [ih (fun x hx => h x (List.mem_cons_of_mem p hx))]
    simp

/-- Reading right after caching recovers exactly the cached object set: the
manifest (written last) lists exactly the new names, and each listed blob
holds the new content. Stale blobs from earlier cycles are not listed and
thus never surface. -/
theorem getCached_after_cache (fs : CacheFS) (objs : LoadedObjects)
    (hndC : (objs.collections.map Prod.fst).Nodup)
    (hndE : (objs.environments.map Prod.fst).Nodup) :
    getCachedObjects (cacheLoadedObjects objs fs) = some objs := by
  have h1 := mapM_names (cacheLoadedObjects objs fs) "collection-" objs.collections
    (fun p hp => cache_collBlob objs fs p.1 p.2 hndC hp)
  have h2 := mapM_names (cacheLoadedObjects objs fs) "env-" objs.environments
    (fun p hp => cache_envBlob objs fs p.1 p.2 hndE hp)
  simp only [getCachedObjects, cache_manifest_read objs fs, h1, h2]

/-! ### C9 — caching then reading discards old state -/

/-- C9 (counterexample): when two sources share a file name, the second blob
overwrites the first and the round trip does not return the loaded set: both
manifest entries resolve to the second content. -/
theorem cache_then_read_dup_cex :
    getCachedObjects (cacheLoadedObjects objsDup emptyFS)
      = some ⟨[("a", Val.num 2), ("a", Val.num 2)], []⟩ ∧
    objsDup.collections ≠ [("a", Val.num 2), ("a", Val.num 2)] := by
  constructor
  · rfl
  · intro h
    simp [objsDup] at h

/-- C9 (amended): for every previous cache state and every newly loaded
object set whose collection names and environment names are each distinct,
`getCachedObjects` after `cacheLoadedObjects` returns exactly the new
collections and environments — never a union with entries from a previous
cache cycle (with duplicate names the later entry overwrites the earlier
one, as the counterexample shows). -/
theorem cache_then_read_replaces (fs : CacheFS) (objs : LoadedObjects)
    (hndC : (objs.collections.map Prod.fst).Nodup)
    (hndE : (objs.environments.map Prod.fst).Nodup) :
    getCachedObjects (cacheLoadedObjects objs fs) = some objs :=
  getCached_after_cache fs objs hndC hndE

/-- C9 witness: the round trip at a concrete one-entry set over the empty
cache. -/
theorem cache_then_read_witness :
    ((objs1.collections.map Prod.fst).Nodup) ∧
    ((objs1.environments.map Prod.fst).Nodup) ∧
    getCachedObjects (cacheLoadedObjects objs1 emptyFS) = some objs1 :=
  ⟨by decide, by decide, cache_then_read_replaces emptyFS objs1 (by decide) (by decide)⟩

/-! ### C8 — status and objects queries over the service lifecycle -/

/-- C8 (counterexample): after a startup load that completes with a `null`
result (here: the config itself is unreadable), the status query still
reports `initialized = false` — not `true` as the claim demands after
completion. -/
theorem readiness_status_cex :
    (loadConfiguredObjects parseFail fetchAlwaysThrown none emptyFS).1 = none ∧
    (statusHandler (srvAfterStartup parseFail fetchAlwaysThrown none
      (srvStart emptyFS))).initialized = false :=
  ⟨rfl, rfl⟩

/-- C8 (amended): before the startup load completes the status query reports
`initialized = false`; after it completes with a non-null result it reports
`initialized = true` (after a failed load it remains `false`); the objects
query returns 404 before the first successful cache write (process start
with an empty cache) and, once a load cycle with per-kind distinct source
names has been cached, the full cached payload. -/
theorem readiness_lifecycle :
    (∀ fs0 : CacheFS, (statusHandler (srvStart fs0)).initialized = false) ∧
    (∀ (parse : String → Option Val) (F : String → Nat → FetchOutcome)
        (cfgRead : Option SrvConfig) (fs0 : CacheFS),
      (loadConfiguredObjects parse F cfgRead fs0).1.isSome = true →
      (statusHandler (srvAfterStartup parse F cfgRead (srvStart fs0))).initialized
        = true) ∧
    objectsHandler (srvStart emptyFS) = none ∧
    (∀ (fs : CacheFS) (objs : LoadedObjects),
      ((objs.collections.map Prod.fst).Nodup) →
      ((objs.environments.map Prod.fst).Nodup) →
      objectsHandler ⟨some objs, cacheLoadedObjects objs fs⟩ = some objs) := by
  refine ⟨fun fs0 => rfl, ?_, rfl, ?_⟩
  · intro parse F cfgRead fs0 h
    simp only [statusHandler, srvAfterStartup, srvStart]
    exact h
  · intro fs objs hndC hndE
    exact getCached_after_cache fs objs hndC hndE

/-- C8 witness: a failed-free startup (config readable, no sources) flips
the status to initialized; a cached one-entry set is served in full. -/
theorem readiness_lifecycle_witness :
    (statusHandler (srvStart emptyFS)).initialized = false ∧
    (loadConfiguredObjects parseFail fetchAlwaysThrown
      (some ⟨none, none⟩) emptyFS).1.isSome = true ∧
    (statusHandler (srvAfterStartup parseFail fetchAlwaysThrown
      (some ⟨none, none⟩) (srvStart emptyFS))).initialized = true ∧
    objectsHandler (srvStart emptyFS) = none ∧
    objectsHandler ⟨some objs1, cacheLoadedObjects objs1 emptyFS⟩ = some objs1 :=
  ⟨readiness_lifecycle.1 emptyFS, rfl,
    readiness_lifecycle.2.1 parseFail fetchAlwaysThrown (some ⟨none, none⟩) emptyFS rfl,
    readiness_lifecycle.2.2.1,
    readiness_lifecycle.2.2.2 emptyFS objs1 (by decide) (by decide)⟩

end RestfoxAutoLoad
